import Mathlib

/-!
Verification of the IQ Spectrum Analyzer's spectral-analysis engine
(`IQ_SpectrumAnalyzer.py`).  Each section shallowly embeds one component
of the source program — the FFT result cache, the selection window, the
debounced update scheduler, the Y-axis scaling state, the file loader and
the FFT computation pipeline — and proves or refutes the specified
properties about it.
-/

set_option maxHeartbeats 1000000
set_option maxRecDepth 100000

namespace IQSpectrum

/-! ## SpectrumCache

Embedding of the cache manipulation in `compute_fft_data` (lines 618-676).
The cache is a Python dict, i.e. an insertion-ordered association list:
`cache[key] = value` overwrites in place when the key exists and appends
otherwise; `del next(iter(cache))` removes the earliest-inserted entry. -/

variable {κ ν : Type} [DecidableEq κ]

/-- Python dict assignment `cache[k] = v`: overwrite in place if present,
else append at the end (insertion order). -/
def dictInsert (c : List (κ × ν)) (k : κ) (v : ν) : List (κ × ν) :=
  if c.any (fun p => p.1 = k) then
    c.map (fun p => if p.1 = k then (k, v) else p)
  else
    c ++ [(k, v)]

/-- Python dict lookup `cache[k]` / `k in cache` (first matching key). -/
def dictGet (c : List (κ × ν)) (k : κ) : Option ν :=
  (c.find? (fun p => p.1 = k)).map Prod.snd

/-- Lines 669-675 of `compute_fft_data`:
`if len(self.fft_cache) > 50: del self.fft_cache[next(iter(self.fft_cache))]`
followed by `self.fft_cache[cache_key] = result`. -/
def fftCachePut (c : List (κ × ν)) (k : κ) (v : ν) : List (κ × ν) :=
  dictInsert (if c.length > 50 then c.drop 1 else c) k v

/-- Cache contents after inserting the distinct keys `0, …, n-1`
(paired with themselves as values) into an empty cache. -/
def putFreshKeys (n : ℕ) : List (ℕ × ℕ) :=
  (List.range n).foldl (fun c k => fftCachePut c k k) []

lemma dictInsert_length_le (c : List (κ × ν)) (k : κ) (v : ν) :
    (dictInsert c k v).length ≤ c.length + 1 := by
  unfold dictInsert
  split
  · simp
  · simp

lemma fftCachePut_length_le (c : List (κ × ν)) (k : κ) (v : ν)
    (h : c.length ≤ 51) : (fftCachePut c k v).length ≤ 51 := by
  unfold fftCachePut
  split
  · rename_i hgt
    have h1 := dictInsert_length_le (c.drop 1) k v
    have h2 : (c.drop 1).length = c.length - 1 := by simp
    omega
  · rename_i hle
    have h1 := dictInsert_length_le c k v
    omega

/-- C1 counterexample: the claim states the cache holds at most 50 entries
and that after inserting 51 distinct keys into an empty cache the 1st key
is gone.  In the code the eviction check `len(self.fft_cache) > 50` runs
before the insertion, so after 51 distinct insertions the cache holds 51
entries and the 1st key is still present. -/
theorem fftCache_claim_counterexample :
    (putFreshKeys 51).length = 51 ∧ dictGet (putFreshKeys 51) 0 = some 0 := by
  decide

/-- C1 (amended): the cache is bounded to at most 51 entries; the single
earliest-inserted entry is evicted (strict FIFO) on an insert that finds
the cache already above 50 entries.  After inserting 52 distinct keys into
an empty cache the 1st key is gone while the 2nd through 52nd remain, and
the cache holds 51 entries. -/
theorem fftCache_bound51_fifo :
    (∀ (c : List (ℕ × ℕ)) (k v : ℕ), c.length ≤ 51 →
      (fftCachePut c k v).length ≤ 51)
    ∧ ((putFreshKeys 52).length = 51
        ∧ dictGet (putFreshKeys 52) 0 = none
        ∧ ∀ k < 52, 1 ≤ k → dictGet (putFreshKeys 52) k = some k) := by
  constructor
  · intro c k v h
    exact fftCachePut_length_le c k v h
  · decide

/-- Witness for the amended C1 theorem at concrete inputs. -/
theorem fftCache_bound51_fifo_witness :
    (fftCachePut ([] : List (ℕ × ℕ)) 7 7).length ≤ 51
    ∧ dictGet (putFreshKeys 52) 5 = some 5 :=
  ⟨fftCache_bound51_fifo.1 [] 7 7 (by decide),
   fftCache_bound51_fifo.2.2.2 5 (by decide) (by decide)⟩

/-! ## SelectionWindow

Embedding of the FFT-region selection state and every mutation path in the
source: `on_mouse_press` / `on_mouse_move` (lines 905-951), the position
slider (`update_fft_position`, lines 993-1008), an FFT-size change
(`update_fft_size`, lines 1049-1066) and a data reload (`open_file`,
lines 735-747).  Every path clamps `fft_start_sample` with
`np.clip(x, 0, max(0, len(iq_data) - fft_size))`; `open_file` resets the
start to 0. -/

structure SelState where
  bufLen : ℕ
  fftSize : ℕ
  start : ℤ
deriving DecidableEq

/-- Model of `np.clip(x, lo, hi)` for scalars with `lo ≤ hi`. -/
def npClip (x lo hi : ℤ) : ℤ := min (max x lo) hi

inductive SelOp where
  /-- Mouse press or drag: `on_mouse_press` / `on_mouse_move`. -/
  | drag (pos : ℤ)
  /-- Slider movement: `update_fft_position`. -/
  | slider (pos : ℤ)
  /-- FFT-size change: `update_fft_size`. -/
  | setSize (sz : ℕ)
  /-- Data reload: `open_file` (new buffer length, FFT size from combo). -/
  | reload (len : ℕ) (sz : ℕ)
deriving DecidableEq

def selStep (s : SelState) : SelOp → SelState
  | .drag pos =>
      { s with start := npClip pos 0 (max 0 ((s.bufLen : ℤ) - (s.fftSize : ℤ))) }
  | .slider pos =>
      { s with start := npClip pos 0 (max 0 ((s.bufLen : ℤ) - (s.fftSize : ℤ))) }
  | .setSize sz =>
      { s with fftSize := sz,
               start := npClip s.start 0 (max 0 ((s.bufLen : ℤ) - (sz : ℤ))) }
  | .reload len sz => { bufLen := len, fftSize := sz, start := 0 }

/-- The selection invariant stated by the spec. -/
def selInvariant (s : SelState) : Prop :=
  0 ≤ s.start ∧ s.start ≤ max 0 ((s.bufLen : ℤ) - (s.fftSize : ℤ))

instance (s : SelState) : Decidable (selInvariant s) := by
  unfold selInvariant
  infer_instance

lemma selStep_invariant (s : SelState) (op : SelOp) : selInvariant (selStep s op) := by
  cases op <;>
    simp only [selStep, selInvariant, npClip] <;>
    constructor <;>
    simp [le_max_iff, min_le_iff, le_refl] <;>
    omega

/-- C5: for every sequence of selection mutations (drag/click, slider
position change, FFT-size change, data reload), after each operation the
selection start satisfies `0 ≤ start ≤ max(0, bufferLength − fftSize)`. -/
theorem selection_invariant_holds (init : SelState) (ops : List SelOp)
    (h : ops ≠ []) : selInvariant (ops.foldl selStep init) := by
  induction ops generalizing init with
  | nil => exact absurd rfl h
  | cons op rest ih =>
    cases rest with
    | nil => simpa using selStep_invariant init op
    | cons op2 rest2 =>
      simpa using ih (selStep init op) (by simp)

/-- Witness for C5 at a concrete state and operation sequence. -/
theorem selection_invariant_holds_witness :
    selInvariant (([SelOp.reload 100 64, SelOp.drag 5000]).foldl selStep
      { bufLen := 0, fftSize := 1024, start := 0 }) :=
  selection_invariant_holds _ _ (by simp)

/-! ## UpdateScheduler (debounce)

Embedding of the single-shot `QTimer` debounce: `schedule_fft_update`
(lines 968-972) stops and restarts the 16 ms single-shot timer and sets
`pending_fft_update`; `delayed_fft_update` (lines 974-978) runs the FFT
update when the timer fires with the pending flag set; `on_mouse_release`
(lines 953-966) stops the timer and runs the update immediately.  Time is
modelled in integer milliseconds; `execs` records the times at which
`update_fft` actually ran. -/

structure DebounceState where
  pending : Bool
  deadline : Option ℕ
  execs : List ℕ
deriving DecidableEq

def initDebounce : DebounceState := ⟨false, none, []⟩

/-- Let the single-shot timer fire (running `delayed_fft_update`) if its
deadline has passed by time `now`. -/
def timerFire (s : DebounceState) (now : ℕ) : DebounceState :=
  match s.deadline with
  | none => s
  | some d =>
      if d ≤ now then
        if s.pending then ⟨false, none, s.execs ++ [d]⟩
        else ⟨s.pending, none, s.execs⟩
      else s

/-- Model of `schedule_fft_update` called at time `now`: set the pending flag, stop
any running timer and restart it with the 16 ms delay. -/
def scheduleFftUpdate (s : DebounceState) (now : ℕ) : DebounceState :=
  let s1 := timerFire s now
  ⟨true, some (now + 16), s1.execs⟩

/-- Model of `on_mouse_release` while dragging: stop the timer and run `update_fft`
immediately (the pending flag is not cleared by the source). -/
def releaseDrag (s : DebounceState) (now : ℕ) : DebounceState :=
  let s1 := timerFire s now
  ⟨s1.pending, none, s1.execs ++ [now]⟩

/-- Let any remaining armed timer fire (time passes beyond all deadlines). -/
def drainTimer (s : DebounceState) : DebounceState :=
  match s.deadline with
  | none => s
  | some d =>
      if s.pending then ⟨false, none, s.execs ++ [d]⟩
      else ⟨s.pending, none, s.execs⟩

def runScheds (s : DebounceState) (ts : List ℕ) : DebounceState :=
  ts.foldl scheduleFftUpdate s

lemma runScheds_chain (ts : List ℕ) : ∀ (t0 : ℕ) (E : List ℕ),
    List.Chain (fun a b => a < b ∧ b < a + 16) t0 ts →
    runScheds ⟨true, some (t0 + 16), E⟩ ts =
      ⟨true, some ((t0 :: ts).getLast (by simp) + 16), E⟩ := by
  induction ts with
  | nil => intro t0 E _; simp [runScheds]
  | cons t1 rest ih =>
    intro t0 E hchain
    rcases List.chain_cons.mp hchain with ⟨⟨_, hlt⟩, hchain'⟩
    have hfire : scheduleFftUpdate ⟨true, some (t0 + 16), E⟩ t1 =
        ⟨true, some (t1 + 16), E⟩ := by
      simp [scheduleFftUpdate, timerFire, Nat.not_le.mpr hlt]
    have : runScheds ⟨true, some (t0 + 16), E⟩ (t1 :: rest) =
        runScheds ⟨true, some (t1 + 16), E⟩ rest := by
      simp [runScheds, hfire]
    rw [this, ih t1 E hchain']
    simp [List.getLast_cons]

/-- C6: N rapid `schedule` calls spaced less than 16 ms apart produce
exactly one executed recomputation, timed 16 ms from the last call; a
drag release (stop timer, run now) after a pending schedule produces
exactly one immediate execution and zero delayed ones. -/
theorem debounce_coalescing :
    (∀ (t0 : ℕ) (ts : List ℕ),
      List.Chain (fun a b => a < b ∧ b < a + 16) t0 ts →
      (drainTimer (runScheds initDebounce (t0 :: ts))).execs =
        [(t0 :: ts).getLast (by simp) + 16])
    ∧ (∀ t0 t1 : ℕ, t0 ≤ t1 → t1 < t0 + 16 →
      (drainTimer (releaseDrag (scheduleFftUpdate initDebounce t0) t1)).execs =
        [t1]) := by
  constructor
  · intro t0 ts hchain
    have h0 : scheduleFftUpdate initDebounce t0 = ⟨true, some (t0 + 16), []⟩ := by
      simp [scheduleFftUpdate, timerFire, initDebounce]
    have : runScheds initDebounce (t0 :: ts) =
        runScheds ⟨true, some (t0 + 16), []⟩ ts := by
      simp [runScheds, h0]
    rw [this, runScheds_chain ts t0 [] hchain]
    simp [drainTimer]
  · intro t0 t1 _ hlt
    have h0 : scheduleFftUpdate initDebounce t0 = ⟨true, some (t0 + 16), []⟩ := by
      simp [scheduleFftUpdate, timerFire, initDebounce]
    rw [h0]
    simp [releaseDrag, timerFire, drainTimer, Nat.not_le.mpr hlt]

/-- Witness for C6: three schedules at 0, 10, 20 ms yield the single
execution at 36 ms; a release at 5 ms after a schedule at 0 ms yields the
single immediate execution at 5 ms. -/
theorem debounce_coalescing_witness :
    (drainTimer (runScheds initDebounce [0, 10, 20])).execs = [36]
    ∧ (drainTimer (releaseDrag (scheduleFftUpdate initDebounce 0) 5)).execs = [5] := by
  constructor
  · have h := debounce_coalescing.1 0 [10, 20] (by simp [List.chain_cons])
    simpa using h
  · exact debounce_coalescing.2 0 5 (by decide) (by decide)

/-! ## Y-axis scaling state

Embedding of the `FFTPlotCanvas` vertical-range logic: `lock_y_axis` /
`unlock_y_axis` (lines 163-169), `update_fft_data_fast` (lines 98-121),
`initialize_fft_plot` (lines 123-161, y-limit part) and the sampling-rate
path `update_sampling_rate` (lines 1010-1020), which calls
`reset_zoom_state` (clearing `fixed_ylim`), unchecks the lock checkbox and
reinitializes the plot with auto-scaling.  `m` abstracts
`np.max(mag_data)` of the newly computed spectrum. -/

structure AxisState where
  fixedYlim : Option (ℚ × ℚ)
  ylim : ℚ × ℚ
  plotReady : Bool
  checkboxChecked : Bool
deriving DecidableEq

/-- The auto-scaled candidate range `(max-80, max+10)` dB. -/
def autoRange (m : ℚ) : ℚ × ℚ := (m - 80, m + 10)

/-- Y-limit part of `initialize_fft_plot`. -/
def initFftPlotYlim (s : AxisState) (m : ℚ) (fix : Bool) : AxisState :=
  match s.fixedYlim, fix with
  | some r, true => { s with plotReady := true, ylim := r }
  | _, _ => { s with plotReady := true, ylim := autoRange m }

/-- Model of `update_fft_data_fast`: first call initializes; later calls either
reuse the fixed limits, or auto-scale with the 5 dB hysteresis test. -/
def updateFftDataFast (s : AxisState) (m : ℚ) (fix : Bool) : AxisState :=
  if s.plotReady = false then initFftPlotYlim s m fix
  else if fix then
    match s.fixedYlim with
    | some r => { s with ylim := r }
    | none => s
  else
    if |s.ylim.1 - (autoRange m).1| > 5 ∨ |s.ylim.2 - (autoRange m).2| > 5 then
      { s with ylim := autoRange m }
    else s

inductive AxisOp where
  /-- Operation `update_fft` with a spectrum whose maximum magnitude is `m`. -/
  | updateFft (m : ℚ)
  /-- checking the Fix Y-Axis box: `lock_y_axis` captures the rendered range. -/
  | lockY
  /-- unchecking the box: `unlock_y_axis`. -/
  | unlockY
  /-- Operation `update_sampling_rate`: reset zoom state, uncheck the box,
  reinitialize with auto-scaling. -/
  | samplingRateChange (m : ℚ)
deriving DecidableEq

def axisStep (s : AxisState) : AxisOp → AxisState
  | .updateFft m => updateFftDataFast s m s.checkboxChecked
  | .lockY => { s with checkboxChecked := true, fixedYlim := some s.ylim }
  | .unlockY => { s with checkboxChecked := false, fixedYlim := none }
  | .samplingRateChange m =>
      initFftPlotYlim
        { s with fixedYlim := none, plotReady := false, checkboxChecked := false }
        m false

/-- Canvas state before any data is rendered. -/
def axisInit : AxisState :=
  { fixedYlim := none, ylim := (0, 1), plotReady := false, checkboxChecked := false }

/-- C7 counterexample: lock the Y axis after an auto-scaled render with
range `(-80, 10)`; a subsequent sampling-rate change — a parameter change,
not `unlockYAxis` — silently drops the lock and auto-scales to `(20, 110)`
instead of returning the captured range verbatim. -/
theorem lockedAxis_counterexample :
    (axisStep (axisStep axisInit (.updateFft 0)) .lockY).fixedYlim = some (-80, 10)
    ∧ (axisStep (axisStep (axisStep axisInit (.updateFft 0)) .lockY)
        (.samplingRateChange 100)).ylim = (20, 110) := by
  constructor
  · norm_num [axisStep, axisInit, updateFftDataFast, initFftPlotYlim, autoRange]
  · norm_num [axisStep, axisInit, updateFftDataFast, initFftPlotYlim, autoRange]

/-- C7 (amended): after `lockYAxis` captures the rendered range `r`, every
subsequent spectrum update (selection drag, window change, FFT-size
change, new data) returns `r` verbatim — but only until `unlockYAxis` or a
lock-clearing operation (sampling-rate change, data reload, home reset)
occurs; a sampling-rate change silently clears the lock and auto-scales. -/
theorem lockedAxis_amended (s : AxisState) (r : ℚ × ℚ) (ms : List ℚ)
    (hchk : s.checkboxChecked = true) (hfix : s.fixedYlim = some r)
    (hne : ms ≠ []) :
    ((ms.map AxisOp.updateFft).foldl axisStep s).ylim = r := by
  induction ms generalizing s with
  | nil => exact absurd rfl hne
  | cons m rest ih =>
    have hstep : axisStep s (.updateFft m) =
        { s with plotReady := true, ylim := r } := by
      simp only [axisStep, updateFftDataFast, hchk, hfix, initFftPlotYlim]
      by_cases hp : s.plotReady = false
      · simp [hp, hfix]
      · simp [hp]
    cases rest with
    | nil => simp [hstep]
    | cons m2 rest2 =>
      have := ih { s with plotReady := true, ylim := r } (by simp [hchk])
        (by simp [hfix]) (by simp)
      simpa [hstep] using this

/-- Witness for the amended C7 theorem at a concrete locked state. -/
theorem lockedAxis_amended_witness :
    ((([3, 50] : List ℚ).map AxisOp.updateFft).foldl axisStep
      { fixedYlim := some (1, 2), ylim := (5, 6), plotReady := true,
        checkboxChecked := true }).ylim = (1, 2) :=
  lockedAxis_amended _ (1, 2) [3, 50] rfl rfl (by simp)

/-! ## File loading (`open_file`, lines 678-765)

IQ samples are complex values modelled as pairs of rationals.  A numpy
object loaded from disk is a 0-d array (`np.load` of a saved scalar), a
1-d array, or a 2-d array of rows; `len()` raises `TypeError` on a 0-d
array.  Each file kind carries the outcome of its parser (`np.load`,
`np.genfromtxt`, `np.fromfile`, `np.loadtxt`), with `none` modelling a
raised parse exception.  `open_file` mutates `self.iq_data` in place and
the surrounding `try/except` does not roll assignments back. -/

/-- A numpy object as far as `open_file` inspects it. -/
inductive NpObject where
  /-- One-dimensional complex array (I + jQ samples). -/
  | cvec (xs : List (ℚ × ℚ))
  /-- Two-dimensional real array (rows of columns). -/
  | rmat (rows : List (List ℚ))
  /-- One-dimensional real array. -/
  | rvec (xs : List ℚ)
  /-- Zero-dimensional array: `len()` raises `TypeError`. -/
  | scalar0 (x : ℚ)

/-- Model of `len(obj)`, `none` when Python raises `TypeError` (0-d array). -/
def npLen : NpObject → Option ℕ
  | .cvec xs => some xs.length
  | .rmat rows => some rows.length
  | .rvec xs => some xs.length
  | .scalar0 _ => none

/-- Model of `len(data.shape)`. -/
def npShapeLen : NpObject → ℕ
  | .cvec _ => 1
  | .rmat _ => 2
  | .rvec _ => 1
  | .scalar0 _ => 0

/-- Model of `data.shape[1]` for a 2-d array (numpy rows are uniform). -/
def npShape1 : NpObject → ℕ
  | .rmat rows => (rows.headD []).length
  | _ => 0

/-- Model of `data[:, 0] + 1j * data[:, 1]` for a 2-d array. -/
def complexFromCols : NpObject → List (ℚ × ℚ)
  | .rmat rows => rows.map (fun r => (r.getD 0 0, r.getD 1 0))
  | _ => []

/-- Model of the Python slice `xs[::2]`. -/
def everySecond : List ℚ → List ℚ
  | [] => []
  | [x] => [x]
  | x :: _ :: rest => x :: everySecond rest

/-- Model of `data[::2] + 1j * data[1::2]` for interleaved float32 binary data. -/
def deinterleave (xs : List ℚ) : List (ℚ × ℚ) :=
  (everySecond xs).zip (everySecond xs.tail)

/-- A file selected in the open dialog, by extension, with its parser's
outcome. -/
inductive IQFile where
  /-- File kind `.npy`: result of `np.load` (`none` = exception raised). -/
  | npy (r : Option NpObject)
  /-- File kind `.csv`: result of `np.genfromtxt`. -/
  | csv (r : Option NpObject)
  /-- File kind `.bin`: float32 values read by `np.fromfile`. -/
  | bin (vals : List ℚ)
  /-- File kind `.txt`: result of `np.loadtxt`. -/
  | txt (r : Option NpObject)
  /-- other extension: fallback `np.loadtxt` inside `try/except`. -/
  | other (r : Option NpObject)

/-- Outcome of one `open_file` call as the user sees it. -/
inductive LoadOutcome where
  /-- data loaded, plots updated, success message shown. -/
  | success
  /-- early `return` with a status-bar message, before any assignment. -/
  | statusMessage
  /-- exception propagated to the `except` handler (error dialog). -/
  | loadError
deriving DecidableEq

/-- Shape test shared by the text-like branches:
`len(data.shape) > 1 and data.shape[1] >= 2`. -/
def twoColumnShape (d : NpObject) : Bool :=
  decide (npShapeLen d > 1) && decide (npShape1 d ≥ 2)

/-- The `iq_data`-relevant behaviour of `open_file` (lines 690-765): each
branch either assigns `self.iq_data` and proceeds to the `len < 64`
validation, or returns early / raises with `iq_data` untouched.  The
returned state is the value of `self.iq_data` after the call, whether or
not it succeeded. -/
def openFileLoad (prev : Option NpObject) : IQFile → LoadOutcome × Option NpObject
  | .npy none => (.loadError, prev)
  | .npy (some obj) =>
      match npLen obj with
      | none => (.loadError, some obj)
      | some _ => (.success, some obj)
  | .csv none => (.loadError, prev)
  | .csv (some d) =>
      if twoColumnShape d then (.success, some (.cvec (complexFromCols d)))
      else (.statusMessage, prev)
  | .bin vals =>
      if vals.length % 2 = 0 then (.success, some (.cvec (deinterleave vals)))
      else (.statusMessage, prev)
  | .txt none => (.loadError, prev)
  | .txt (some d) =>
      if twoColumnShape d then (.success, some (.cvec (complexFromCols d)))
      else (.statusMessage, prev)
  | .other none => (.statusMessage, prev)
  | .other (some d) =>
      if twoColumnShape d then (.success, some (.cvec (complexFromCols d)))
      else (.statusMessage, prev)

/-- A previously successfully loaded buffer of 100 samples. -/
def prevGoodBuffer : NpObject := .cvec (List.replicate 100 (1, 0))

/-- C8: the claim says every failing load attempt leaves the previously
loaded buffer unchanged.  Opening a `.npy` file holding a 0-d array
refutes it: `np.load` succeeds, `self.iq_data` is assigned, and only then
does `len(self.iq_data)` raise `TypeError`, so the error dialog is shown
while the prior buffer has already been replaced by the 0-d object. -/
theorem openFile_npy_scalar_bug :
    openFileLoad (some prevGoodBuffer) (.npy (some (.scalar0 3)))
      = (.loadError, some (.scalar0 3))
    ∧ (openFileLoad (some prevGoodBuffer) (.npy (some (.scalar0 3)))).2
        ≠ some prevGoodBuffer := by
  refine ⟨rfl, ?_⟩
  simp [openFileLoad, npLen, prevGoodBuffer]

/-! ## WindowFunctionLibrary

The window branches of `compute_fft_data` (lines 632-644) call
`np.hamming`, `np.hanning`, `np.blackman` and `np.bartlett`.  Each numpy
window returns `[]` for `M < 1`, `[1]` for `M == 1`, and otherwise the
standard closed form over `M` points (numpy documentation):
Hamming `0.54 - 0.46 cos(2πk/(M-1))`,
Hanning `0.5 - 0.5 cos(2πk/(M-1))`,
Blackman `0.42 - 0.5 cos(2πk/(M-1)) + 0.08 cos(4πk/(M-1))`,
Bartlett `(2/(M-1)) ((M-1)/2 - |k - (M-1)/2|)`. -/

noncomputable def npHamming (n : ℕ) : List ℝ :=
  if n = 1 then [1]
  else List.ofFn (fun k : Fin n =>
    0.54 - 0.46 * Real.cos (2 * Real.pi * ((k : ℕ) : ℝ) / ((n : ℝ) - 1)))

noncomputable def npHanning (n : ℕ) : List ℝ :=
  if n = 1 then [1]
  else List.ofFn (fun k : Fin n =>
    0.5 - 0.5 * Real.cos (2 * Real.pi * ((k : ℕ) : ℝ) / ((n : ℝ) - 1)))

noncomputable def npBlackman (n : ℕ) : List ℝ :=
  if n = 1 then [1]
  else List.ofFn (fun k : Fin n =>
    0.42 - 0.5 * Real.cos (2 * Real.pi * ((k : ℕ) : ℝ) / ((n : ℝ) - 1))
      + 0.08 * Real.cos (4 * Real.pi * ((k : ℕ) : ℝ) / ((n : ℝ) - 1)))

noncomputable def npBartlett (n : ℕ) : List ℝ :=
  if n = 1 then [1]
  else List.ofFn (fun k : Fin n =>
    2 / ((n : ℝ) - 1) * (((n : ℝ) - 1) / 2 - |((k : ℕ) : ℝ) - ((n : ℝ) - 1) / 2|))

/-- The window kinds offered by the window combo box (line 432). -/
inductive WindowKind where
  | rectangle
  | hamming
  | hanning
  | blackman
  | bartlett
deriving DecidableEq

/-- Contract `coefficients(kind, n)`: the tapering sequence each branch of
`compute_fft_data` multiplies by (Rectangle leaves the data untouched,
i.e. all-ones coefficients). -/
noncomputable def coefficients : WindowKind → ℕ → List ℝ
  | .rectangle, n => List.replicate n 1
  | .hamming, n => npHamming n
  | .hanning, n => npHanning n
  | .blackman, n => npBlackman n
  | .bartlett, n => npBartlett n

lemma coefficients_length (kind : WindowKind) (n : ℕ) :
    (coefficients kind n).length = n := by
  cases kind <;>
    simp only [coefficients, npHamming, npHanning, npBlackman, npBartlett] <;>
    first
      | simp
      | (split <;> simp_all)

lemma npHamming_mem_bounds {n : ℕ} {w : ℝ} (hw : w ∈ npHamming n) :
    0 ≤ w ∧ w ≤ 1 := by
  unfold npHamming at hw
  split at hw
  · simp only [List.mem_singleton] at hw
    subst hw; norm_num
  · rw [List.mem_ofFn] at hw
    obtain ⟨k, hk⟩ := hw
    rw [← hk]
    have h1 := Real.neg_one_le_cos (2 * Real.pi * ((k : ℕ) : ℝ) / ((n : ℝ) - 1))
    have h2 := Real.cos_le_one (2 * Real.pi * ((k : ℕ) : ℝ) / ((n : ℝ) - 1))
    constructor <;> nlinarith

lemma npHanning_mem_bounds {n : ℕ} {w : ℝ} (hw : w ∈ npHanning n) :
    0 ≤ w ∧ w ≤ 1 := by
  unfold npHanning at hw
  split at hw
  · simp only [List.mem_singleton] at hw
    subst hw; norm_num
  · rw [List.mem_ofFn] at hw
    obtain ⟨k, hk⟩ := hw
    rw [← hk]
    have h1 := Real.neg_one_le_cos (2 * Real.pi * ((k : ℕ) : ℝ) / ((n : ℝ) - 1))
    have h2 := Real.cos_le_one (2 * Real.pi * ((k : ℕ) : ℝ) / ((n : ℝ) - 1))
    constructor <;> nlinarith

lemma npBlackman_mem_bounds {n : ℕ} {w : ℝ} (hw : w ∈ npBlackman n) :
    0 ≤ w ∧ w ≤ 1 := by
  unfold npBlackman at hw
  split at hw
  · simp only [List.mem_singleton] at hw
    subst hw; norm_num
  · rw [List.mem_ofFn] at hw
    obtain ⟨k, hk⟩ := hw
    rw [← hk]
    dsimp only
    have h4 : (4 : ℝ) * Real.pi * ((k : ℕ) : ℝ) / ((n : ℝ) - 1)
        = 2 * (2 * Real.pi * ((k : ℕ) : ℝ) / ((n : ℝ) - 1)) := by ring
    rw [h4, Real.cos_two_mul]
    set c := Real.cos (2 * Real.pi * ((k : ℕ) : ℝ) / ((n : ℝ) - 1)) with hc
    have h1 : -1 ≤ c := Real.neg_one_le_cos _
    have h2 : c ≤ 1 := Real.cos_le_one _
    constructor
    · nlinarith [sq_nonneg (c - 1), mul_nonneg (sub_nonneg.mpr h2) (sub_nonneg.mpr h2)]
    · nlinarith [mul_nonneg (by linarith : (0 : ℝ) ≤ 1 + c)
        (by linarith : (0 : ℝ) ≤ 0.66 - 0.16 * c)]

lemma npBartlett_mem_bounds {n : ℕ} {w : ℝ} (hw : w ∈ npBartlett n) :
    0 ≤ w ∧ w ≤ 1 := by
  unfold npBartlett at hw
  split at hw
  · simp only [List.mem_singleton] at hw
    subst hw; norm_num
  · rename_i hn1
    rw [List.mem_ofFn] at hw
    obtain ⟨k, hk⟩ := hw
    rw [← hk]
    dsimp only
    have hn2 : 2 ≤ n := by
      have := k.2
      omega
    have hN : (0 : ℝ) < (n : ℝ) - 1 := by
      have : (2 : ℝ) ≤ (n : ℝ) := by exact_mod_cast hn2
      linarith
    have hk0 : (0 : ℝ) ≤ ((k : ℕ) : ℝ) := Nat.cast_nonneg _
    have hkn : ((k : ℕ) : ℝ) ≤ (n : ℝ) - 1 := by
      have hlt : ((k : ℕ) : ℝ) < (n : ℝ) := by exact_mod_cast k.2
      have hle : (k : ℕ) + 1 ≤ n := k.2
      have : ((k : ℕ) : ℝ) + 1 ≤ (n : ℝ) := by exact_mod_cast hle
      linarith
    have habs : |((k : ℕ) : ℝ) - ((n : ℝ) - 1) / 2| ≤ ((n : ℝ) - 1) / 2 :=
      abs_le.mpr ⟨by linarith, by linarith⟩
    have habs0 : 0 ≤ |((k : ℕ) : ℝ) - ((n : ℝ) - 1) / 2| := abs_nonneg _
    constructor
    · apply mul_nonneg (by positivity) (by linarith)
    · have hstep : 2 / ((n : ℝ) - 1)
          * (((n : ℝ) - 1) / 2 - |((k : ℕ) : ℝ) - ((n : ℝ) - 1) / 2|)
          ≤ 2 / ((n : ℝ) - 1) * (((n : ℝ) - 1) / 2) := by
        apply mul_le_mul_of_nonneg_left (by linarith) (by positivity)
      have hone : 2 / ((n : ℝ) - 1) * (((n : ℝ) - 1) / 2) = 1 := by
        field_simp
      linarith

lemma coefficients_mem_bounds (kind : WindowKind) (n : ℕ) :
    ∀ w ∈ coefficients kind n, 0 ≤ w ∧ w ≤ 1 := by
  intro w hw
  cases kind
  · simp only [coefficients, List.mem_replicate] at hw
    rw [hw.2]; norm_num
  · exact npHamming_mem_bounds hw
  · exact npHanning_mem_bounds hw
  · exact npBlackman_mem_bounds hw
  · exact npBartlett_mem_bounds hw

/-- C9: for every supported window kind and every length `n > 0`, the
window-coefficient sequence has exactly `n` real values, each in `[0, 1]`,
and Rectangle returns all ones. -/
theorem window_coefficients_spec (kind : WindowKind) (n : ℕ) (hn : 0 < n) :
    (coefficients kind n).length = n
    ∧ (∀ w ∈ coefficients kind n, 0 ≤ w ∧ w ≤ 1)
    ∧ (kind = .rectangle → coefficients kind n = List.replicate n 1) := by
  refine ⟨coefficients_length kind n, coefficients_mem_bounds kind n, ?_⟩
  intro hk
  rw [hk]
  rfl

/-- Witness for C9 at the Blackman window of length 4. -/
theorem window_coefficients_spec_witness :
    (coefficients .blackman 4).length = 4
    ∧ (∀ w ∈ coefficients .blackman 4, 0 ≤ w ∧ w ≤ 1)
    ∧ (WindowKind.blackman = .rectangle →
        coefficients .blackman 4 = List.replicate 4 1) :=
  window_coefficients_spec .blackman 4 (by decide)

/-! ## SpectrumEngine (`compute_fft_data`, lines 618-676)

The computational core of `compute_fft_data`, cache aside: extract the
selected segment, apply the window selected by the lower-cased name,
zero-pad to the FFT size, run `np.fft.fft` + `np.fft.fftshift`, and
convert to dB magnitudes with the `1e-12` floor. -/

/-- Python `str.lower()` (the window names are ASCII). -/
def pyLower (s : String) : String := ⟨s.data.map Char.toLower⟩

/-- Model of `self.iq_data[start_sample:end_sample]` with
`end_sample = min(len(self.iq_data), start_sample + fft_size)` (lines 628-629). -/
def dataSegment (iq_data : List ℂ) (start_sample fft_size : ℕ) : List ℂ :=
  (iq_data.take (min iq_data.length (start_sample + fft_size))).drop start_sample

/-- The window dispatch of lines 632-644: any name whose lower-casing is
not one of the five supported ones falls through to the final `else`,
which leaves the segment unwindowed. -/
noncomputable def applyWindow (window_type : String) (data_segment : List ℂ) : List ℂ :=
  if pyLower window_type = "rectangle" then data_segment
  else if pyLower window_type = "hamming" then
    data_segment.zipWith (fun (x : ℂ) (wc : ℝ) => x * (wc : ℂ)) (npHamming data_segment.length)
  else if pyLower window_type = "hanning" then
    data_segment.zipWith (fun (x : ℂ) (wc : ℝ) => x * (wc : ℂ)) (npHanning data_segment.length)
  else if pyLower window_type = "blackman" then
    data_segment.zipWith (fun (x : ℂ) (wc : ℝ) => x * (wc : ℂ)) (npBlackman data_segment.length)
  else if pyLower window_type = "bartlett" then
    data_segment.zipWith (fun (x : ℂ) (wc : ℝ) => x * (wc : ℂ)) (npBartlett data_segment.length)
  else data_segment

/-- Zero-padding of lines 647-650. -/
def zeroPad (xs : List ℂ) (fft_size : ℕ) : List ℂ :=
  if xs.length < fft_size then xs ++ List.replicate (fft_size - xs.length) 0 else xs

/-- The discrete Fourier transform computed by `np.fft.fft` on an input of
length `n`: `X_k = Σ_j x_j · exp(-2πi·jk/n)`. -/
noncomputable def npFft (x : List ℂ) : List ℂ :=
  List.ofFn (fun k : Fin x.length =>
    ∑ j : Fin x.length,
      x.get j * Complex.exp
        (-2 * (Real.pi : ℂ) * Complex.I * (((j : ℕ) * (k : ℕ) : ℕ) : ℂ)
          / (x.length : ℂ)))

/-- Model of `np.fft.fft(x, n)`: crop or zero-pad the input to length `n` first. -/
noncomputable def npFftN (x : List ℂ) (n : ℕ) : List ℂ :=
  npFft (if n ≤ x.length then x.take n else x ++ List.replicate (n - x.length) 0)

/-- Model of `np.fft.fftshift`: roll by `length / 2`, moving zero frequency to the
center. -/
def fftshift {α : Type} (xs : List α) : List α :=
  xs.drop (xs.length - xs.length / 2) ++ xs.take (xs.length - xs.length / 2)

/-- Line 654: `20 * np.log10(np.abs(fft_result) + 1e-12)`. -/
noncomputable def magDb (xs : List ℂ) : List ℝ :=
  xs.map (fun z => 20 * Real.logb 10 (Complex.abs z + 1e-12))

/-- The magnitude output of `compute_fft_data` (cache aside). -/
noncomputable def computeFftMag (iq_data : List ℂ) (start_sample fft_size : ℕ)
    (window_type : String) : List ℝ :=
  magDb (fftshift (npFftN
    (zeroPad (applyWindow window_type (dataSegment iq_data start_sample fft_size))
      fft_size)
    fft_size))

/-- Value `end_sample - start_sample`, the third component of the result tuple
(line 667), as the Python integer it is. -/
def actualSamples (iq_data : List ℂ) (start_sample fft_size : ℕ) : ℤ :=
  ((min iq_data.length (start_sample + fft_size) : ℕ) : ℤ) - (start_sample : ℤ)

/-- The strings offered by the window combo box (line 432). -/
def windowName : WindowKind → String
  | .rectangle => "Rectangle"
  | .hamming => "Hamming"
  | .hanning => "Hanning"
  | .blackman => "Blackman"
  | .bartlett => "Bartlett"

/-- A window name outside the supported set, for concrete instantiation. -/
def kaiserName : String := "Kaiser"

lemma dataSegment_nil {iq_data : List ℂ} {start_sample fft_size : ℕ}
    (h : iq_data.length ≤ start_sample) :
    dataSegment iq_data start_sample fft_size = [] := by
  unfold dataSegment
  apply List.drop_eq_nil_of_le
  simp only [List.length_take]
  omega

lemma applyWindow_nil (window_type : String) : applyWindow window_type [] = [] := by
  unfold applyWindow
  simp

lemma zeroPad_nil (fft_size : ℕ) : zeroPad [] fft_size = List.replicate fft_size 0 := by
  unfold zeroPad
  rcases Nat.eq_zero_or_pos fft_size with h | h
  · subst h; simp
  · simp [h]

lemma npFftN_replicate_zero (n : ℕ) :
    npFftN (List.replicate n (0 : ℂ)) n = List.replicate n 0 := by
  unfold npFftN npFft
  simp [List.take_replicate, List.get_replicate, List.ofFn_const]

lemma fftshift_replicate {α : Type} (n : ℕ) (a : α) :
    fftshift (List.replicate n a) = List.replicate n a := by
  unfold fftshift
  simp only [List.length_replicate, List.drop_replicate, List.take_replicate,
    ← List.replicate_add]
  congr 1
  omega

lemma magDb_replicate_zero (n : ℕ) :
    magDb (List.replicate n (0 : ℂ)) = List.replicate n (20 * Real.logb 10 (1e-12)) := by
  unfold magDb
  simp [List.map_replicate]

/-- On a selection that resolves to zero samples, the code silently
produces the degenerate all-padding spectrum. -/
lemma computeFftMag_allPadding (iq_data : List ℂ) (start_sample fft_size : ℕ)
    (window_type : String) (h : iq_data.length ≤ start_sample) :
    computeFftMag iq_data start_sample fft_size window_type
      = List.replicate fft_size (20 * Real.logb 10 (1e-12)) := by
  unfold computeFftMag
  rw [dataSegment_nil h, applyWindow_nil, zeroPad_nil, npFftN_replicate_zero,
    fftshift_replicate, magDb_replicate_zero]

/-- C2 counterexample: the claim says `computeSpectrum` rejects an empty
selection with an empty-input error and never silently returns a
degenerate all-padding spectrum.  On an empty buffer the code returns a
normal result — every one of the `fftSize` bins equal to
`20·log10(1e-12)` — with no error of any kind. -/
theorem emptySelection_counterexample :
    computeFftMag [] 0 64 (windowName .hamming)
      = List.replicate 64 (20 * Real.logb 10 (1e-12)) :=
  computeFftMag_allPadding [] 0 64 (windowName .hamming) (by simp)

/-- C2 (amended): `compute_fft_data` performs no empty-input check.
Whenever the selected segment resolves to zero samples (empty buffer, or
start at or past the buffer end) it silently returns the degenerate
all-padding spectrum, every bin equal to `20·log10(1e-12)`; the only
guard on the callers' path is `update_fft` returning early when no data
has been loaded at all. -/
theorem emptySelection_allPadding (iq_data : List ℂ) (start_sample fft_size : ℕ)
    (window_type : String) (h : iq_data.length ≤ start_sample) :
    computeFftMag iq_data start_sample fft_size window_type
      = List.replicate fft_size (20 * Real.logb 10 (1e-12)) :=
  computeFftMag_allPadding iq_data start_sample fft_size window_type h

/-- Witness for the amended C2 theorem: a one-sample buffer with the
selection start past its end. -/
theorem emptySelection_allPadding_witness :
    computeFftMag [1] 5 64 (windowName .blackman)
      = List.replicate 64 (20 * Real.logb 10 (1e-12)) :=
  emptySelection_allPadding [1] 5 64 (windowName .blackman) (by simp)

/-- C10: a window-kind name outside the five supported values does not
fail or reject; the final `else` of the dispatch silently leaves the
segment unwindowed, so the computation behaves exactly as with the
Rectangle window and returns a normal spectrum. -/
theorem unknown_window_rectangle (window_type : String) (iq_data : List ℂ)
    (start_sample fft_size : ℕ)
    (h1 : pyLower window_type ≠ "rectangle")
    (h2 : pyLower window_type ≠ "hamming")
    (h3 : pyLower window_type ≠ "hanning")
    (h4 : pyLower window_type ≠ "blackman")
    (h5 : pyLower window_type ≠ "bartlett") :
    (∀ data_segment : List ℂ, applyWindow window_type data_segment = data_segment)
    ∧ computeFftMag iq_data start_sample fft_size window_type
      = computeFftMag iq_data start_sample fft_size (windowName .rectangle) := by
  have happ : ∀ data_segment : List ℂ,
      applyWindow window_type data_segment = data_segment := by
    intro data_segment
    simp [applyWindow, h1, h2, h3, h4, h5]
  refine ⟨happ, ?_⟩
  unfold computeFftMag
  rw [happ]
  have hrect : ∀ data_segment : List ℂ,
      applyWindow (windowName .rectangle) data_segment = data_segment := by
    intro data_segment
    simp [applyWindow, windowName]
    intro hcontra
    exact absurd hcontra (by decide)
  rw [hrect]

/-- Witness for C10 at the unsupported name "Kaiser". -/
theorem unknown_window_rectangle_witness :
    (∀ data_segment : List ℂ, applyWindow kaiserName data_segment = data_segment)
    ∧ computeFftMag [1] 0 8 kaiserName
      = computeFftMag [1] 0 8 (windowName .rectangle) :=
  unknown_window_rectangle kaiserName [1] 0 8 (by decide) (by decide) (by decide)
    (by decide) (by decide)

/-! ## Refinement of `compute_fft_data` against the spec's reference
definition of `computeSpectrum` (§4.2). -/

/-- The reference definition of `computeSpectrum`, following the spec's
words (§4.2 steps 1-5): extract the segment
`[start, min(bufferLength, start+fftSize))` and record its true length as
`actualSampleCount`; multiply elementwise by the window coefficients of
length `actualSampleCount`; zero-pad on the right to exactly `fftSize`
complex values, never truncating; take the length-`fftSize` DFT reordered
so zero frequency sits at the center; output per-bin magnitude
`20·log10(|X_k| + 1e-12)`. -/
noncomputable def refSpectrum (buffer : List ℂ) (start fftSize : ℕ)
    (kind : WindowKind) : List ℝ × ℕ :=
  let segment := (buffer.take (min buffer.length (start + fftSize))).drop start
  let actualSampleCount := segment.length
  let windowed := segment.zipWith (fun (x : ℂ) (wc : ℝ) => x * (wc : ℂ))
    (coefficients kind actualSampleCount)
  let padded := windowed ++ List.replicate (fftSize - windowed.length) 0
  ((fftshift (npFft padded)).map
      (fun z => 20 * Real.logb 10 (Complex.abs z + 1e-12)),
    actualSampleCount)

lemma zipWith_mul_replicate_one (xs : List ℂ) :
    xs.zipWith (fun (x : ℂ) (wc : ℝ) => x * (wc : ℂ)) (List.replicate xs.length (1 : ℝ))
      = xs := by
  induction xs with
  | nil => rfl
  | cons x rest ih =>
    simp only [List.length_cons, List.replicate_succ, List.zipWith_cons_cons, ih]
    simp

lemma applyWindow_eq_coefficients (kind : WindowKind) (seg : List ℂ) :
    applyWindow (windowName kind) seg
      = seg.zipWith (fun (x : ℂ) (wc : ℝ) => x * (wc : ℂ)) (coefficients kind seg.length) := by
  cases kind
  · simp only [applyWindow, windowName, coefficients]
    rw [if_pos (by decide)]
    exact (zipWith_mul_replicate_one seg).symm
  · simp only [applyWindow, windowName, coefficients]
    rw [if_neg (by decide), if_pos (by decide)]
  · simp only [applyWindow, windowName, coefficients]
    rw [if_neg (by decide), if_neg (by decide), if_pos (by decide)]
  · simp only [applyWindow, windowName, coefficients]
    rw [if_neg (by decide), if_neg (by decide), if_neg (by decide),
      if_pos (by decide)]
  · simp only [applyWindow, windowName, coefficients]
    rw [if_neg (by decide), if_neg (by decide), if_neg (by decide),
      if_neg (by decide), if_pos (by decide)]

lemma zeroPad_eq_append {xs : List ℂ} {n : ℕ} (h : xs.length ≤ n) :
    zeroPad xs n = xs ++ List.replicate (n - xs.length) 0 := by
  unfold zeroPad
  split
  · rfl
  · have hlen : xs.length = n := by omega
    simp [hlen]

lemma npFftN_of_length {x : List ℂ} {n : ℕ} (h : x.length = n) :
    npFftN x n = npFft x := by
  unfold npFftN
  rw [if_pos (by omega)]
  congr 1
  rw [← h, List.take_length]

lemma dataSegment_length (iq_data : List ℂ) (start_sample fft_size : ℕ) :
    (dataSegment iq_data start_sample fft_size).length
      = min iq_data.length (start_sample + fft_size) - start_sample := by
  unfold dataSegment
  simp only [List.length_drop, List.length_take]
  omega

/-- C4: for every buffer, valid selection start, FFT size and window kind,
the embedded `compute_fft_data` computation equals the spec's reference
definition of `computeSpectrum`: same per-bin magnitudes and the segment's
true length as `actualSampleCount`. -/
theorem computeFft_refines_spec (buffer : List ℂ) (start_sample fft_size : ℕ)
    (kind : WindowKind) (h : start_sample ≤ buffer.length) :
    computeFftMag buffer start_sample fft_size (windowName kind)
      = (refSpectrum buffer start_sample fft_size kind).1
    ∧ actualSamples buffer start_sample fft_size
      = ((refSpectrum buffer start_sample fft_size kind).2 : ℤ) := by
  have hseg_len := dataSegment_length buffer start_sample fft_size
  have hwin := applyWindow_eq_coefficients kind
    (dataSegment buffer start_sample fft_size)
  have hWlen : ((dataSegment buffer start_sample fft_size).zipWith
      (fun (x : ℂ) (wc : ℝ) => x * (wc : ℂ))
      (coefficients kind (dataSegment buffer start_sample fft_size).length)).length
      = (dataSegment buffer start_sample fft_size).length := by
    simp [List.length_zipWith, coefficients_length]
  have hsegn : (dataSegment buffer start_sample fft_size).length ≤ fft_size := by
    rw [hseg_len]; omega
  have hplen : (((dataSegment buffer start_sample fft_size).zipWith
      (fun (x : ℂ) (wc : ℝ) => x * (wc : ℂ))
      (coefficients kind (dataSegment buffer start_sample fft_size).length))
      ++ List.replicate (fft_size
        - (((dataSegment buffer start_sample fft_size).zipWith
            (fun (x : ℂ) (wc : ℝ) => x * (wc : ℂ))
            (coefficients kind
              (dataSegment buffer start_sample fft_size).length)).length))
        (0 : ℂ)).length = fft_size := by
    simp only [List.length_append, List.length_replicate, hWlen]
    omega
  constructor
  · show magDb (fftshift (npFftN (zeroPad (applyWindow (windowName kind)
        (dataSegment buffer start_sample fft_size)) fft_size) fft_size)) = _
    rw [hwin, zeroPad_eq_append (le_trans (le_of_eq hWlen) hsegn),
      npFftN_of_length hplen]
    rfl
  · show ((min buffer.length (start_sample + fft_size) : ℕ) : ℤ)
        - (start_sample : ℤ) = _
    have hlen2 : ((buffer.take (min buffer.length (start_sample + fft_size))).drop
        start_sample).length
        = min buffer.length (start_sample + fft_size) - start_sample :=
      dataSegment_length buffer start_sample fft_size
    show _ = ((((buffer.take (min buffer.length (start_sample + fft_size))).drop
        start_sample).length : ℕ) : ℤ)
    rw [hlen2]
    omega

/-- Witness for C4 at a concrete buffer, selection and window kind. -/
theorem computeFft_refines_spec_witness :
    computeFftMag [1, Complex.I, 2, 3] 1 8 (windowName .hamming)
      = (refSpectrum [1, Complex.I, 2, 3] 1 8 .hamming).1
    ∧ actualSamples [1, Complex.I, 2, 3] 1 8
      = ((refSpectrum [1, Complex.I, 2, 3] 1 8 .hamming).2 : ℤ) :=
  computeFft_refines_spec [1, Complex.I, 2, 3] 1 8 .hamming (by simp)

/-! ## Frequency axis and unit selection (C3)

`compute_fft_data` computes
`np.fft.fftshift(np.fft.fftfreq(fft_size, 1/(sampling_rate * 1e6)))`
(line 657; `sampling_rate` is in MHz) and then divides the axis by `1e6`
or `1e3` when its maximum absolute value exceeds those thresholds (lines
660-665).  `initialize_fft_plot` (lines 131-136) chooses the axis label
with the same thresholds — but applied to the already-scaled `freq_data`
it receives.  Frequencies are modelled as rationals. -/

/-- Model of `np.fft.fftfreq(n, d)`: `[0, 1, …, (n-1)//2, -(n//2), …, -1] / (n·d)`;
index `k` holds `k/(n·d)` for `k < (n+1)//2` and `(k-n)/(n·d)` above. -/
def npFftfreq (n : ℕ) (d : ℚ) : List ℚ :=
  List.ofFn (fun k : Fin n =>
    (if (k : ℕ) < (n + 1) / 2 then ((k : ℕ) : ℚ) else ((k : ℕ) : ℚ) - (n : ℚ))
      / ((n : ℚ) * d))

/-- Line 657: the raw frequency axis for a sampling rate given in MHz. -/
def freqAxisOf (fft_size : ℕ) (sampling_rate : ℚ) : List ℚ :=
  fftshift (npFftfreq fft_size (1 / (sampling_rate * 1e6)))

/-- Model of `max(abs(freq_axis))`. -/
def listMaxAbs (xs : List ℚ) : ℚ := (xs.map (fun x => |x|)).foldr max 0

/-- Lines 660-665: unit scaling of the frequency axis inside
`compute_fft_data`. -/
def scaleFreq (freq_axis : List ℚ) : List ℚ :=
  if listMaxAbs freq_axis > 1e6 then freq_axis.map (fun x => x / 1e6)
  else if listMaxAbs freq_axis > 1e3 then freq_axis.map (fun x => x / 1e3)
  else freq_axis

inductive FreqUnit where
  | hz
  | khz
  | mhz
deriving DecidableEq

/-- Lines 131-136: the axis label chosen by `initialize_fft_plot` from the
`freq_data` argument it receives — which is the already-scaled axis. -/
def axisUnitLabel (freq_data : List ℚ) : FreqUnit :=
  if listMaxAbs freq_data > 1e6 then .mhz
  else if listMaxAbs freq_data > 1e3 then .khz
  else .hz

lemma le_listMaxAbs_of_mem {x : ℚ} {xs : List ℚ} (h : x ∈ xs) :
    |x| ≤ listMaxAbs xs := by
  unfold listMaxAbs
  induction xs with
  | nil => cases h
  | cons y ys ih =>
    simp only [List.map_cons, List.foldr_cons]
    rcases List.mem_cons.mp h with rfl | hmem
    · exact le_max_left _ _
    · exact le_trans (ih hmem) (le_max_right _ _)

lemma listMaxAbs_le {xs : List ℚ} {B : ℚ} (hB : 0 ≤ B)
    (h : ∀ x ∈ xs, |x| ≤ B) : listMaxAbs xs ≤ B := by
  unfold listMaxAbs
  induction xs with
  | nil => simpa using hB
  | cons y ys ih =>
    simp only [List.map_cons, List.foldr_cons]
    apply max_le (h y (by simp))
    exact ih (fun x hx => h x (List.mem_cons_of_mem y hx))

lemma mem_fftshift {α : Type} {x : α} {xs : List α} :
    x ∈ fftshift xs ↔ x ∈ xs := by
  unfold fftshift
  constructor
  · intro h
    rcases List.mem_append.mp h with h | h
    · exact List.drop_subset _ _ h
    · exact List.take_subset _ _ h
  · intro h
    rw [List.mem_append]
    conv at h =>
      rw [← List.take_append_drop (xs.length - xs.length / 2) xs]
    rcases List.mem_append.mp h with h | h
    · exact Or.inr h
    · exact Or.inl h

lemma npFftfreq240_abs_le :
    ∀ x ∈ npFftfreq 1024 (1 / ((240 : ℚ) * 1e6)), |x| ≤ 120000000 := by
  intro x hx
  rw [npFftfreq, List.mem_ofFn] at hx
  obtain ⟨k, hk⟩ := hx
  rw [← hk]
  dsimp only
  have hden : ((((1024 : ℕ)) : ℚ) * (1 / ((240 : ℚ) * 1e6)))⁻¹ = 234375 := by
    push_cast
    norm_num
  rw [div_eq_mul_inv, hden, abs_mul]
  rw [show |(234375 : ℚ)| = 234375 from by norm_num]
  have hnum : |if (k : ℕ) < (1024 + 1) / 2 then ((k : ℕ) : ℚ)
      else ((k : ℕ) : ℚ) - (1024 : ℕ)| ≤ 512 := by
    split
    · rename_i hlt
      have hk511 : (k : ℕ) ≤ 511 := by omega
      have hq : ((k : ℕ) : ℚ) ≤ 511 := by exact_mod_cast hk511
      rw [abs_of_nonneg (Nat.cast_nonneg _)]
      linarith
    · rename_i hge
      have h512 : 512 ≤ (k : ℕ) := by omega
      have hlt1024 : (k : ℕ) < 1024 := k.2
      have hq1 : (512 : ℚ) ≤ ((k : ℕ) : ℚ) := by exact_mod_cast h512
      have hq2 : ((k : ℕ) : ℚ) < 1024 := by exact_mod_cast hlt1024
      rw [abs_of_nonpos (by push_cast; linarith)]
      push_cast
      linarith
  calc |if (k : ℕ) < (1024 + 1) / 2 then ((k : ℕ) : ℚ)
      else ((k : ℕ) : ℚ) - (1024 : ℕ)| * 234375
      ≤ 512 * 234375 := by
        apply mul_le_mul_of_nonneg_right hnum
        norm_num
    _ = 120000000 := by norm_num

lemma npFftfreq240_member :
    (-120000000 : ℚ) ∈ npFftfreq 1024 (1 / ((240 : ℚ) * 1e6)) := by
  rw [npFftfreq, List.mem_ofFn]
  refine ⟨⟨512, by norm_num⟩, ?_⟩
  dsimp only
  norm_num

lemma freqAxis240_maxAbs_ge :
    (120000000 : ℚ) ≤ listMaxAbs (freqAxisOf 1024 240) := by
  have hmem : (-120000000 : ℚ) ∈ freqAxisOf 1024 240 :=
    mem_fftshift.mpr npFftfreq240_member
  have := le_listMaxAbs_of_mem hmem
  rw [show |(-120000000 : ℚ)| = 120000000 from by norm_num] at this
  exact this

lemma freqAxis240_maxAbs_le :
    listMaxAbs (freqAxisOf 1024 240) ≤ 120000000 := by
  apply listMaxAbs_le (by norm_num)
  intro x hx
  exact npFftfreq240_abs_le x (mem_fftshift.mp hx)

/-- C3: the claim requires the axis to be reported in matching units —
scaled to MHz exactly when labeled MHz.  At sampling rate 240 MHz with
`fftSize = 1024` the code divides the axis by `1e6` (its raw maximum
absolute value is `1.2e8 > 1e6`), but the label logic in
`initialize_fft_plot` re-applies the `1e6`/`1e3` thresholds to the
already-scaled data, whose maximum is `120`, and therefore labels the
MHz-valued axis "Frequency (Hz)". -/
theorem freqAxis_unit_label_bug :
    listMaxAbs (freqAxisOf 1024 240) > 1e6
    ∧ scaleFreq (freqAxisOf 1024 240)
        = (freqAxisOf 1024 240).map (fun x => x / 1e6)
    ∧ axisUnitLabel (scaleFreq (freqAxisOf 1024 240)) = FreqUnit.hz := by
  have hge := freqAxis240_maxAbs_ge
  have hgt : listMaxAbs (freqAxisOf 1024 240) > 1e6 := by
    have h1 : (1e6 : ℚ) < 120000000 := by norm_num
    linarith
  refine ⟨hgt, ?_, ?_⟩
  · unfold scaleFreq
    rw [if_pos hgt]
  · have hscaled : ∀ y ∈ (freqAxisOf 1024 240).map (fun x => x / 1e6),
        |y| ≤ 120 := by
      intro y hy
      rw [List.mem_map] at hy
      obtain ⟨x, hx, rfl⟩ := hy
      have hxb : |x| ≤ 120000000 :=
        npFftfreq240_abs_le x (mem_fftshift.mp hx)
      rw [abs_div]
      rw [show |(1e6 : ℚ)| = 1e6 from by norm_num]
      rw [div_le_iff (by norm_num)]
      linarith
    have hmax : listMaxAbs ((freqAxisOf 1024 240).map (fun x => x / 1e6)) ≤ 120 :=
      listMaxAbs_le (by norm_num) hscaled
    unfold axisUnitLabel scaleFreq
    rw [if_pos hgt, if_neg (by linarith), if_neg (by linarith)]

end IQSpectrum
